import Mathlib

/-
Verification of the DNS-coordinated active/passive failover system:
the failover controller (dns_failover.py), the ownership follower
(otel_watcher.py) and the two parity reconcilers (victoriametrics/vm_sync.py,
clickhouse/ch-sync/ch_sync.py).  Python strings are modelled as lists of
characters; per-tick I/O (health probes, DNS reads, datastore queries) is
passed in as explicit tick inputs.
-/

namespace Failover

/-- Python strings are modelled as `List Char`. -/
abbrev PyStr := List Char

/-- Coerce a Lean string literal to the `PyStr` model. -/
def pyStr (s : String) : PyStr := s.data

/-- Helper for `pySplitWs`: accumulates the current token (reversed) while
scanning.  Models the behaviour of Python `str.split()` with no arguments:
runs of whitespace separate tokens and empty tokens are dropped. -/
def splitWsAux : List Char → List Char → List PyStr
  | [], acc => if acc.isEmpty then [] else [acc.reverse]
  | c :: cs, acc =>
    if c.isWhitespace then
      if acc.isEmpty then splitWsAux cs [] else acc.reverse :: splitWsAux cs []
    else splitWsAux cs (c :: acc)

/-- Python `txt.split()` (whitespace split, empties discarded). -/
def pySplitWs (s : PyStr) : List PyStr := splitWsAux s []

/-- Python `txt.replace('"', '')`: removes every double-quote character. -/
def pyRemoveQuotes (s : PyStr) : PyStr := s.filter (fun c => c ≠ '\"')

/-- Helper for `pySplitEq1`: scans for the first `'='`, returning the part
before it (accumulated reversed) and everything after it. -/
def splitEqAux : List Char → List Char → Option (PyStr × PyStr)
  | [], _ => none
  | c :: cs, acc => if c = '=' then some (acc.reverse, cs) else splitEqAux cs (c :: acc)

/-- Python `part.split('=', 1)` guarded by `'=' in part`: `none` when the token
contains no `'='` (such tokens are skipped by `parse_txt`). -/
def pySplitEq1 (part : PyStr) : Option (PyStr × PyStr) := splitEqAux part []

/-- `parse_txt` from dns_failover.py: strips double quotes, splits the TXT
string on whitespace, and collects every `key=value` token into a dict.
The dict is modelled as an association list built in insertion order;
lookups take the last binding, matching Python dict overwrite semantics. -/
def parse_txt (txt : PyStr) : List (PyStr × PyStr) :=
  if txt.isEmpty then []
  else
    (pySplitWs (pyRemoveQuotes txt)).foldl
      (fun acc part =>
        match pySplitEq1 part with
        | some kv => acc ++ [kv]
        | none => acc) []

/-- Python `dict.get(k)`: the last binding of `k`, if any. -/
def dictGet (d : List (PyStr × PyStr)) (k : PyStr) : Option PyStr :=
  ((d.filter (fun p => p.1 = k)).getLast?).map Prod.snd

/-- Numeric value of a digit character (`'0'` ↦ 0, …). -/
def charVal (c : Char) : Nat := c.toNat - 48

/-- Base-10 value of a digit string read left to right. -/
def digitsVal (cs : List Char) : Nat :=
  cs.foldl (fun n c => 10 * n + charVal c) 0

/-- Python `int(s)` on the strings this program produces: an optional sign
followed by decimal digits.  (Surrounding whitespace and underscore digit
separators, which Python also accepts, cannot occur here: every argument is a
whitespace-free token.)  `none` models `int` raising `ValueError`. -/
def pyIntOpt (s : PyStr) : Option Int :=
  match s with
  | [] => none
  | c :: ds =>
    if c = '-' then
      if ds ≠ [] ∧ ds.all Char.isDigit then some (-(digitsVal ds : Int)) else none
    else if c = '+' then
      if ds ≠ [] ∧ ds.all Char.isDigit then some ((digitsVal ds : Int)) else none
    else
      if (c :: ds).all Char.isDigit then some ((digitsVal (c :: ds) : Int)) else none

/-- Digit character of a value below 10. -/
def digitChar (d : Nat) : Char := Char.ofNat (48 + d)

/-- Python `str(n)` for a natural number. -/
def natStr (n : Nat) : PyStr :=
  if n = 0 then ['0'] else ((Nat.digits 10 n).map digitChar).reverse

/-- Python `str(n)` for an integer. -/
def intStr (n : Int) : PyStr :=
  if n < 0 then '-' :: natStr n.natAbs else natStr n.toNat

/-- The TXT lease encoding used by every provider's `set_records`:
the f-string `owner=<owner> exp=<exp_unix>`. -/
def encodeTxt (owner : PyStr) (exp : Int) : PyStr :=
  pyStr "owner=" ++ owner ++ pyStr " exp=" ++ intStr exp

/-- Decoded lease owner, as read by `heartbeat_dr` and `show_dns`:
`parse_txt(records.get('TXT'))` followed by `.get('owner')`.  A missing TXT
record (`None`) takes the same path as the empty string. -/
def leaseOwner (txt : Option PyStr) : Option PyStr :=
  dictGet (parse_txt (txt.getD [])) (pyStr "owner")

/-- Decoded lease expiry: `int(txt_data.get('exp', '0')) if txt_data.get('exp')
else 0`.  A missing or empty `exp` value yields 0; `none` models `int`
raising on a malformed value. -/
def leaseExp (txt : Option PyStr) : Option Int :=
  match dictGet (parse_txt (txt.getD [])) (pyStr "exp") with
  | none => some 0
  | some v => if v.isEmpty then some 0 else pyIntOpt v

/-! Failover controller (dns_failover.py).  A provider write is the triple
passed to `set_records`; each heartbeat tick is a pure function of the
configuration, the loop state and the tick's observed inputs, returning the
list of writes it issues.  `none` models an uncaught exception. -/

/-- The configuration fields of dns_failover.py `Config` that the heartbeat
loops and administrative commands read. -/
structure FoConfig where
  primary_ip : PyStr
  dr_ip : PyStr
  lease_ttl : Int
  fail_threshold : Int
  deriving DecidableEq

/-- One `provider.set_records(ip, owner, exp_unix)` call. -/
structure Write where
  ip : PyStr
  owner : PyStr
  exp : Int
  deriving DecidableEq

/-- A provider `get_records()` result: `{'A': ip?, 'TXT': string?}`. -/
structure Records where
  A : Option PyStr
  TXT : Option PyStr
  deriving DecidableEq

/-- `init_dns`: write `(primary_ip, 'primary', now + lease_ttl)`. -/
def init_dns (cfg : FoConfig) (now : Int) : Write :=
  { ip := cfg.primary_ip, owner := pyStr "primary", exp := now + cfg.lease_ttl }

/-- `promote_to_dr`: write `(dr_ip, 'dr', now + lease_ttl)`. -/
def promote_to_dr (cfg : FoConfig) (now : Int) : Write :=
  { ip := cfg.dr_ip, owner := pyStr "dr", exp := now + cfg.lease_ttl }

/-- `failback_to_primary`: write `(primary_ip, 'primary', now + lease_ttl)`. -/
def failback_to_primary (cfg : FoConfig) (now : Int) : Write :=
  { ip := cfg.primary_ip, owner := pyStr "primary", exp := now + cfg.lease_ttl }

/-- One iteration of `heartbeat_primary`: renew the lease unconditionally. -/
def primary_tick (cfg : FoConfig) (now : Int) : Write :=
  { ip := cfg.primary_ip, owner := pyStr "primary", exp := now + cfg.lease_ttl }

/-- Inputs one `heartbeat_dr` iteration observes: the health probe result,
the records returned by `provider.get_records()`, and the current time. -/
structure DrTickInput where
  healthy : Bool
  records : Records
  now : Int
  deriving DecidableEq

/-- One iteration of the `heartbeat_dr` loop body, from the health check to
the write decision.  Returns the issued writes and the updated
`consecutive_failures`; `none` models the uncaught `ValueError` from
`int(...)` on a malformed `exp` value, which crashes the loop before any
write. -/
def dr_tick (cfg : FoConfig) (fails : Nat) (inp : DrTickInput) :
    Option (List Write × Nat) :=
  if inp.healthy then some ([], 0)
  else
    let fails' := fails + 1
    if (fails' : Int) < cfg.fail_threshold then some ([], fails')
    else
      match leaseExp inp.records.TXT with
      | none => none
      | some exp_unix =>
        if leaseOwner inp.records.TXT = some (pyStr "dr") then
          some ([{ ip := cfg.dr_ip, owner := pyStr "dr", exp := inp.now + cfg.lease_ttl }],
            fails')
        else if exp_unix < inp.now then
          some ([promote_to_dr cfg inp.now], fails')
        else
          some ([], fails')

/-- `DryRunProvider.set_records`: the zone state after a write holds
`A = ip` and `TXT = 'owner=<owner> exp=<exp>'`.  Every other provider
publishes the same record pair through its own API. -/
def dryrunSet (w : Write) : Records :=
  { A := some w.ip, TXT := some (encodeTxt w.owner w.exp) }

/-- Python `dict.get(k, dflt)` for dicts modelled as association lists built
in insertion order: the last binding wins. -/
def pyGetD {κ α : Type} [DecidableEq κ] (d : List (κ × α)) (k : κ) (dflt : α) : α :=
  ((((d.filter (fun p => p.1 = k)).getLast?).map Prod.snd).getD dflt)

/-! Parity reconciler for VictoriaMetrics (victoriametrics/vm_sync.py).
Query results are dicts `{timestamp: count}`, modelled as association lists
built in insertion order; the per-cycle network I/O (health pings, DNS
resolution, the two `vm_query` results, `sync_range` byte counts) is passed
in as a cycle input. -/

namespace VmSync

/-- The configuration fields of vm_sync.py `Config` that `run_sync_check`
reads. -/
structure Config where
  role : PyStr
  primary_ip : PyStr
  dr_ip : PyStr
  query_step : Int
  gap_threshold : ℚ
  chunk_size : Int
  failback_clean_checks : Int
  deriving DecidableEq

/-- `SyncState` of vm_sync.py, with the `SyncState()` defaults as the
initial state. -/
structure SyncState where
  last_check : Option PyStr := none
  last_sync : Option PyStr := none
  consecutive_clean : Int := 0
  failback_ready : Bool := false
  active_site : Option PyStr := none
  gaps_detected : Int := 0
  samples_synced : Int := 0
  last_error : Option PyStr := none
  deriving DecidableEq

/-- Python `dict.get(k, d)` for the `{timestamp: count}` dicts. -/
def dictGetD (d : List (Int × Int)) (k : Int) (dflt : Int) : Int :=
  pyGetD d k dflt

/-- `get_active_site`: compare the resolved IP with the configured site IPs;
`none` when resolution failed or the IP matches neither site. -/
def get_active_site (cfg : Config) (resolvedIp : Option PyStr) : Option PyStr :=
  if resolvedIp = some cfg.primary_ip then some (pyStr "primary")
  else if resolvedIp = some cfg.dr_ip then some (pyStr "dr")
  else none

/-- Loop body of `find_gaps` for one `source_counts` item: skip when the
source count is zero, otherwise record a gap when the dest/source ratio is
below `gap_threshold`.  Python float division is modelled over `ℚ` (the
counts are integers, so the ratio is exact). -/
def gapStep (cfg : Config) (dest_counts : List (Int × Int)) (gaps : List Int)
    (p : Int × Int) : List Int :=
  let source_count := p.2
  let dest_count := dictGetD dest_counts p.1 0
  if source_count = 0 then gaps
  else
    let ratio : ℚ := if source_count > 0 then (dest_count : ℚ) / (source_count : ℚ) else 0
    if ratio < cfg.gap_threshold then gaps ++ [p.1] else gaps

/-- `find_gaps`: timestamps of the source dict whose destination count falls
below `gap_threshold` of the source count, in sorted order. -/
def find_gaps (cfg : Config) (source_counts dest_counts : List (Int × Int)) :
    List Int :=
  (source_counts.foldl (gapStep cfg dest_counts) []).mergeSort (fun a b => a ≤ b)

/-- `merge_consecutive` inner loop: current range is `[start, end_)`. -/
def mergeAux (step : Int) : List Int → Int → Int → List (Int × Int)
  | [], start, end_ => [(start, end_)]
  | ts :: rest, start, end_ =>
    if ts ≤ end_ then mergeAux step rest start (ts + step)
    else (start, end_) :: mergeAux step rest ts (ts + step)

/-- `merge_consecutive`: merge consecutive timestamps into `(start, end)`
ranges. -/
def merge_consecutive (timestamps : List Int) (step : Int) : List (Int × Int) :=
  match timestamps with
  | [] => []
  | t :: rest => mergeAux step rest t (t + step)

/-- The while-loop in `run_sync_check` that chunks a range and accumulates
the bytes reported by `sync_range` (passed in as the oracle `sync`).  The
source loops forever when `chunk_size ≤ 0`; that case (unreachable under any
integer environment configuration ≥ 1) is cut off. -/
def chunkSum (sync : Int → Int → Nat) (csize : Int) (s e : Int) : Nat :=
  if h : s < e ∧ 0 < csize then
    sync s (min (s + csize) e) + chunkSum sync csize (min (s + csize) e) e
  else 0
termination_by (e - s).toNat
decreasing_by
  simp only [Int.lt_iff_add_one_le] at h
  omega

/-- Inputs one `run_sync_check` cycle observes. -/
structure CycleInput where
  nowIso : PyStr
  localHealthy : Bool
  remoteHealthy : Bool
  resolvedIp : Option PyStr
  localCounts : List (Int × Int)
  remoteCounts : List (Int × Int)
  syncBytes : Int → Int → Nat

/-- One `run_sync_check` cycle of vm_sync.py, from the health checks to the
state accounting.  (Setting `failback_ready := true` is guarded in the
source by `if not state.failback_ready`, which only gates the one-shot
notification; the resulting state is the same.) -/
def run_sync_check (cfg : Config) (state : SyncState) (inp : CycleInput) :
    SyncState :=
  let st := { state with last_check := some inp.nowIso }
  if ¬inp.localHealthy then { st with last_error := some (pyStr "Local VM unhealthy") }
  else if ¬inp.remoteHealthy then { st with last_error := some (pyStr "Remote VM unhealthy") }
  else
    match get_active_site cfg inp.resolvedIp with
    | none => { st with last_error := some (pyStr "DNS lookup failed") }
    | some active =>
      let st := { st with active_site := some active }
      if inp.localCounts.isEmpty ∧ inp.remoteCounts.isEmpty then st
      else
        let sd := if active = cfg.role then (inp.localCounts, inp.remoteCounts)
                  else (inp.remoteCounts, inp.localCounts)
        let gaps := find_gaps cfg sd.1 sd.2
        if gaps.isEmpty then
          let st := { st with consecutive_clean := st.consecutive_clean + 1,
                              gaps_detected := 0, last_error := none }
          if st.consecutive_clean ≥ cfg.failback_clean_checks then
            { st with failback_ready := true }
          else st
        else
          let st := { st with consecutive_clean := 0, failback_ready := false,
                              gaps_detected := gaps.length }
          let ranges := merge_consecutive gaps cfg.query_step
          let total : Nat := (ranges.map (fun r => chunkSum inp.syncBytes cfg.chunk_size r.1 r.2)).sum
          { st with last_sync := some inp.nowIso,
                    samples_synced := st.samples_synced + total,
                    last_error := none }

/-- States of the vm-sync reconciler reachable from the `SyncState()`
defaults by running cycles. -/
inductive Reach (cfg : Config) : SyncState → Prop
  | init : Reach cfg {}
  | step (s : SyncState) (inp : CycleInput) : Reach cfg s → Reach cfg (run_sync_check cfg s inp)

end VmSync

/-! Parity reconciler for ClickHouse (clickhouse/ch-sync/ch_sync.py).
Discovery results, per-table partition-count dicts and per-partition sync
outcomes are passed in as cycle inputs. -/

namespace ChSync

/-- The configuration fields of ch_sync.py `Config` that `run_sync_check`
reads. -/
structure Config where
  role : PyStr
  primary_ip : PyStr
  dr_ip : PyStr
  failback_clean_checks : Int
  auto_create_tables : Bool
  deriving DecidableEq

/-- `SyncState` of ch_sync.py, with the `SyncState()` defaults as the
initial state.  (`tables_created` is read from the state file but never
assigned by `run_sync_check`, whose `tables_created` is a shadowing local.) -/
structure SyncState where
  last_check : Option PyStr := none
  last_sync : Option PyStr := none
  consecutive_clean : Int := 0
  failback_ready : Bool := false
  active_site : Option PyStr := none
  tables_checked : Int := 0
  tables_with_gaps : Int := 0
  partitions_synced : Int := 0
  rows_synced : Int := 0
  tables_created : List PyStr := []
  new_tables_detected : List PyStr := []
  last_error : Option PyStr := none
  deriving DecidableEq

/-- `get_active_site` of ch_sync.py (textually identical to the vm_sync.py
copy). -/
def get_active_site (cfg : Config) (resolvedIp : Option PyStr) : Option PyStr :=
  if resolvedIp = some cfg.primary_ip then some (pyStr "primary")
  else if resolvedIp = some cfg.dr_ip then some (pyStr "dr")
  else none

/-- Loop body of `find_partition_gaps` for one source partition: a gap when
the destination has strictly fewer rows. -/
def partGapStep (dest_partitions : List (PyStr × Int))
    (gaps : List (PyStr × Int × Int)) (p : PyStr × Int) : List (PyStr × Int × Int) :=
  let dest_count := pyGetD dest_partitions p.1 0
  if dest_count < p.2 then gaps ++ [(p.1, p.2, dest_count)] else gaps

/-- `find_partition_gaps`: partitions of the source dict whose destination
row count is strictly below the source row count, as
`(partition, source_count, dest_count)` triples in source iteration order. -/
def find_partition_gaps (source_partitions dest_partitions : List (PyStr × Int)) :
    List (PyStr × Int × Int) :=
  source_partitions.foldl (partGapStep dest_partitions) []

/-- Inputs one ch_sync.py `run_sync_check` cycle observes: discovery output
(table names after exclusion filtering), auto-create outcomes, per-table
partition-count dicts, and per-partition `sync_partition` outcomes
`(success, rows)`. -/
structure CycleInput where
  nowIso : PyStr
  localHealthy : Bool
  remoteHealthy : Bool
  resolvedIp : Option PyStr
  localTables : List PyStr
  remoteTables : List PyStr
  createOk : PyStr → Bool
  localParts : PyStr → List (PyStr × Int)
  remoteParts : PyStr → List (PyStr × Int)
  syncResult : PyStr → PyStr → Bool × Int

/-- The new-table pass of `run_sync_check`: walk the remote tables in
discovery order; a table absent locally is auto-created (joining the local
set on success) or recorded in `new_tables_detected`. -/
def newTablePass (cfg : Config) (inp : CycleInput) :
    List PyStr × List PyStr :=
  inp.remoteTables.foldl
    (fun acc t =>
      if t ∈ acc.1 then acc
      else if cfg.auto_create_tables then
        if inp.createOk t then (acc.1 ++ [t], acc.2) else (acc.1, acc.2 ++ [t])
      else (acc.1, acc.2 ++ [t]))
    (inp.localTables, [])

/-- `sync_table` for one table in the non-active branch: attempt
`sync_partition` for every gap, counting successes and their row totals. -/
def sync_table (inp : CycleInput) (t : PyStr) (gaps : List (PyStr × Int × Int)) :
    Int × Int :=
  gaps.foldl
    (fun acc g =>
      let r := inp.syncResult t g.1
      if r.1 then (acc.1 + 1, acc.2 + r.2) else acc)
    (0, 0)

/-- The per-table check loop of `run_sync_check`: for each common table,
compare remote (source) and local (dest) partition counts and sync the gaps.
Returns `(tables_with_gaps, partitions_synced, rows_synced)`. -/
def tableLoop (inp : CycleInput) (tables : List PyStr) : Int × Int × Int :=
  tables.foldl
    (fun acc t =>
      let gaps := find_partition_gaps (inp.remoteParts t) (inp.localParts t)
      if gaps.isEmpty then acc
      else
        let r := sync_table inp t gaps
        (acc.1 + 1, acc.2.1 + r.1, acc.2.2 + r.2))
    (0, 0, 0)

/-- One `run_sync_check` cycle of ch_sync.py.  `sorted(set(local) & set(remote))`
is modelled by sorting the deduplicated common names lexicographically. -/
def run_sync_check (cfg : Config) (state : SyncState) (inp : CycleInput) :
    SyncState :=
  let st := { state with last_check := some inp.nowIso, tables_with_gaps := 0,
                         new_tables_detected := [] }
  if ¬inp.localHealthy then { st with last_error := some (pyStr "Local ClickHouse unhealthy") }
  else if ¬inp.remoteHealthy then { st with last_error := some (pyStr "Remote ClickHouse unhealthy") }
  else
    match get_active_site cfg inp.resolvedIp with
    | none => { st with last_error := some (pyStr "DNS lookup failed") }
    | some active =>
      let st := { st with active_site := some active }
      if active = cfg.role then
        { st with consecutive_clean := st.consecutive_clean + 1, last_error := none }
      else
        let pass := newTablePass cfg inp
        let st := { st with new_tables_detected := pass.2 }
        let tables_to_check :=
          ((pass.1.filter (fun t => t ∈ inp.remoteTables)).dedup).mergeSort
            (fun a b => decide (¬b < a))
        let st := { st with tables_checked := tables_to_check.length }
        let totals := tableLoop inp tables_to_check
        let st := { st with tables_with_gaps := totals.1,
                            partitions_synced := st.partitions_synced + totals.2.1,
                            rows_synced := st.rows_synced + totals.2.2 }
        if totals.2.1 > 0 then
          { st with last_sync := some inp.nowIso, consecutive_clean := 0 }
        else if totals.1 = 0 ∧ st.new_tables_detected.isEmpty then
          let st := { st with consecutive_clean := st.consecutive_clean + 1,
                              last_error := none }
          if st.consecutive_clean ≥ cfg.failback_clean_checks then
            { st with failback_ready := true }
          else st
        else
          { st with consecutive_clean := 0, failback_ready := false }

/-- States of the ch-sync reconciler reachable from the `SyncState()`
defaults by running cycles. -/
inductive Reach (cfg : Config) : SyncState → Prop
  | init : Reach cfg {}
  | step (s : SyncState) (inp : CycleInput) : Reach cfg s → Reach cfg (run_sync_check cfg s inp)

end ChSync

/-! State-file persistence.  `save_state` in both reconcilers is modelled as
the sequence of filesystem operations it performs; the JSON serialization
`json.dump(state.to_dict(), f, indent=2)` is represented by carrying the
state value in the write operation. -/

/-- Posix `os.path.dirname`: the path up to (not including) the last `'/'`,
with trailing slashes stripped unless the result is all slashes. -/
def pyDirname (p : PyStr) : PyStr :=
  let head := (p.reverse.dropWhile (fun c => c ≠ '/')).reverse
  if head.all (fun c => c = '/') then head
  else (head.reverse.dropWhile (fun c => c = '/')).reverse

/-- A filesystem operation performed by `save_state`; `σ` is the state type
whose serialization is written. -/
inductive FsOp (σ : Type) where
  | makedirs (dir : PyStr)
  | writeFile (path : PyStr) (content : σ)
  | rename (src : PyStr) (dst : PyStr)
  deriving DecidableEq

/-- Whether a filesystem operation is a rename. -/
def FsOp.isRename {σ : Type} : FsOp σ → Bool
  | FsOp.rename _ _ => true
  | _ => false

/-- `save_state` of vm_sync.py: `os.makedirs(os.path.dirname(path))`, then
`open(path, 'w')` and `json.dump` of the state — a single direct write to the
state-file path itself. -/
def VmSync.save_state (path : PyStr) (state : VmSync.SyncState) :
    List (FsOp VmSync.SyncState) :=
  [FsOp.makedirs (pyDirname path), FsOp.writeFile path state]

/-- `save_state` of ch_sync.py (textually identical to the vm_sync.py copy). -/
def ChSync.save_state (path : PyStr) (state : ChSync.SyncState) :
    List (FsOp ChSync.SyncState) :=
  [FsOp.makedirs (pyDirname path), FsOp.writeFile path state]

/-! Metrics-based health checking (dns_failover.py `parse_metric_value` and
`MetricsHealthChecker`).  Python float arithmetic is modelled over `ℚ`, and
`float(value_part)` is a parameter of the parser so that results do not
depend on which literal formats the model of `float` covers. -/

/-- Python `text.split('\n')` (single-character split, empties kept). -/
def pySplitLines (s : PyStr) : List PyStr :=
  splitLinesAux s []
where
  splitLinesAux : List Char → List Char → List PyStr
    | [], acc => [acc.reverse]
    | c :: cs, acc =>
      if c = '\n' then acc.reverse :: splitLinesAux cs []
      else splitLinesAux cs (c :: acc)

/-- Python `s.strip()`. -/
def pyStrip (s : PyStr) : PyStr :=
  ((s.dropWhile Char.isWhitespace).reverse.dropWhile Char.isWhitespace).reverse

/-- Python `line.split('}')[-1]`: everything after the last `'}'` (the whole
line when it has none). -/
def afterLastBrace (s : PyStr) : PyStr :=
  (s.reverse.takeWhile (fun c => c ≠ '}')).reverse

/-- Model of Python `float(s)` restricted to plain decimal literals
(optional sign, digits, optional fraction part).  Exponent, `inf` and `nan`
literals are out of the model (`none`); the metric values this program
probes are plain decimal counters.  Division over `ℚ` is exact. -/
def pyFloatQ (s : PyStr) : Option ℚ :=
  match s with
  | '-' :: t => (pyFloatCore t).map (fun q => -q)
  | '+' :: t => pyFloatCore t
  | t => pyFloatCore t
where
  pyFloatCore (t : List Char) : Option ℚ :=
    let ip := t.takeWhile Char.isDigit
    match t.dropWhile Char.isDigit with
    | [] => if ip.isEmpty then none else some ((digitsVal ip : ℚ))
    | '.' :: fp =>
      if fp.all Char.isDigit ∧ ¬(ip.isEmpty ∧ fp.isEmpty) then
        some ((digitsVal ip : ℚ) + (digitsVal fp : ℚ) / ((10 : ℚ) ^ fp.length))
      else none
    | _ => none

/-- `parse_metric_value`: iterate the exposition's lines, skip blank and
comment lines, and sum the values of every line that starts with the metric
name (taking the text after the last `'}'` for labelled lines, the second
whitespace token otherwise); lines whose value `float` cannot parse are
skipped.  Returns `none` when no line matched. -/
def parse_metric_value (pf : PyStr → Option ℚ) (metrics_text metric_name : PyStr) :
    Option ℚ :=
  if metrics_text.isEmpty then none
  else
    let r := (pySplitLines metrics_text).foldl
      (fun (acc : ℚ × Bool) rawLine =>
        let line := pyStrip rawLine
        if line.isEmpty ∨ line.head? = some '#' then acc
        else if metric_name.isPrefixOf line then
          let value_part? : Option PyStr :=
            if '{' ∈ line then some (pyStrip (afterLastBrace line))
            else
              match pySplitWs line with
              | _ :: v :: _ => some v
              | _ => none
          match value_part? with
          | none => acc
          | some vp =>
            match pf vp with
            | some v => (acc.1 + v, true)
            | none => acc
        else acc)
      (0, false)
    if r.2 then some r.1 else none

/-- Mutable state of a `MetricsHealthChecker`. -/
structure MState where
  last_value : Option ℚ := none
  stale_checks : Nat := 0
  deriving DecidableEq

/-- `MetricsHealthChecker.check`: the fetched exposition text (or `none`
when the endpoint is unreachable) is the call's input; returns the health
verdict and the updated checker state. -/
def metricsCheck (pf : PyStr → Option ℚ) (metric_name : PyStr) (stale_count : Int)
    (st : MState) (fetched : Option PyStr) : Bool × MState :=
  match fetched with
  | none =>
    let st := { st with stale_checks := st.stale_checks + 1 }
    (((st.stale_checks : Int) < stale_count), st)
  | some text =>
    match parse_metric_value pf text metric_name with
    | none =>
      let st := { st with stale_checks := st.stale_checks + 1 }
      (((st.stale_checks : Int) < stale_count), st)
    | some current =>
      match st.last_value with
      | none => (true, { st with last_value := some current })
      | some last =>
        if current > last then
          (true, { st with last_value := some current, stale_checks := 0 })
        else
          let st := { st with last_value := some current,
                              stale_checks := st.stale_checks + 1 }
          (((st.stale_checks : Int) < stale_count), st)

/-! Ownership follower (otel_watcher.py).  The side effects on the managed
workload are recorded as events; the per-tick environment supplies the DNS
resolution result, whether the previously started process is still alive
(`poll()`), and whether a `Popen` attempt succeeds. -/

namespace Watcher

/-- Watcher state: the logging flag `last_state` plus the `OTELCollector`
fields `running` (the flag set by `start`/`stop`) and `process is not None`. -/
structure WState where
  lastState : Option Bool := none
  running : Bool := false
  hasProc : Bool := false
  deriving DecidableEq

/-- One tick's environment. -/
structure TickInput where
  resolved : Option PyStr
  aliveNow : Bool
  startOk : Bool
  deriving DecidableEq

/-- A side effect on the managed workload: a `Popen` attempt or the graceful
stop sequence. -/
inductive Event where
  | activate
  | deactivate
  deriving DecidableEq

/-- `OTELCollector.is_running()`: a process object exists and `poll()` says
it is alive. -/
def is_running (st : WState) (alive : Bool) : Bool := st.hasProc && alive

/-- `OTELCollector.start()`: a no-op when the `running` flag is set;
otherwise attempt `Popen` (the activate side effect).  On success the new
process replaces any old one and is alive; on failure `running` is cleared
and `self.process` keeps its old value.  The third component tracks whether
the current process object is alive after the call. -/
def start (st : WState) (alive : Bool) (startOk : Bool) :
    List Event × WState × Bool :=
  if st.running then ([], st, alive)
  else if startOk then ([Event.activate], { st with running := true, hasProc := true }, true)
  else ([Event.activate], { st with running := false }, alive)

/-- `OTELCollector.stop()`: a no-op unless the `running` flag is set and a
process object exists; otherwise signal the process group (the deactivate
side effect) and clear both fields. -/
def stop (st : WState) (alive : Bool) : List Event × WState × Bool :=
  if ¬st.running ∨ ¬st.hasProc then ([], st, alive)
  else ([Event.deactivate], { st with running := false, hasProc := false }, false)

/-- One iteration of the otel_watcher.py main loop: on resolution failure
keep all state; otherwise compute `should_be_active`, record it in
`last_state`, start or stop based on `is_running`, then re-start if active
but not running (crash recovery). -/
def tick (myIp : PyStr) (st : WState) (inp : TickInput) : List Event × WState :=
  match inp.resolved with
  | none => ([], st)
  | some ip =>
    let sba : Bool := ip = myIp
    let st := { st with lastState := some sba }
    let r1 :=
      if sba then
        if ¬is_running st inp.aliveNow then start st inp.aliveNow inp.startOk
        else ([], st, inp.aliveNow)
      else
        if is_running st inp.aliveNow then stop st inp.aliveNow
        else ([], st, inp.aliveNow)
    let r2 :=
      if sba ∧ ¬is_running r1.2.1 r1.2.2 then start r1.2.1 r1.2.2 inp.startOk
      else ([], r1.2.1, r1.2.2)
    (r1.1 ++ r2.1, r2.2.1)

/-- Run the watcher loop over a list of tick environments, collecting the
emitted events. -/
def runTicks (myIp : PyStr) (st : WState) : List TickInput → List Event × WState
  | [] => ([], st)
  | inp :: rest =>
    let r := tick myIp st inp
    let r' := runTicks myIp r.2 rest
    (r.1 ++ r'.1, r'.2)

/-- The benign environment: every started process stays alive until stopped
and every `Popen` succeeds. -/
def healthyInput (st : WState) (resolved : Option PyStr) : TickInput :=
  { resolved := resolved, aliveNow := st.hasProc, startOk := true }

/-- Run the watcher loop in the benign environment, driven only by the DNS
resolution results. -/
def runHealthy (myIp : PyStr) (st : WState) : List (Option PyStr) → List Event × WState
  | [] => ([], st)
  | r :: rest =>
    let t := tick myIp st (healthyInput st r)
    let t' := runHealthy myIp t.2 rest
    (t.1 ++ t'.1, t'.2)

/-- The `should_be_active` values of the successfully resolved ticks. -/
def sbaTrace (myIp : PyStr) (rs : List (Option PyStr)) : List Bool :=
  rs.filterMap (fun r => r.map (fun ip => decide (ip = myIp)))

/-- Counts of `false→true` and `true→false` edges of a boolean trace,
starting from `prev`. -/
def transitions (prev : Bool) : List Bool → Nat × Nat
  | [] => (0, 0)
  | b :: bs =>
    let r := transitions b bs
    if b ∧ ¬prev then (r.1 + 1, r.2)
    else if ¬b ∧ prev then (r.1, r.2 + 1)
    else r

end Watcher

/-! Helper lemmas about the string codec. -/

theorem isDigit_char_facts (c : Char) (h : c.isDigit = true) :
    c.isWhitespace = false ∧ c ≠ '\"' ∧ c ≠ '=' ∧ c ≠ '-' ∧ c ≠ '+' := by
  refine ⟨?_, ?_, ?_, ?_, ?_⟩
  · rw [Bool.eq_false_iff]
    intro hw
    simp only [Char.isWhitespace, Bool.or_eq_true, decide_eq_true_eq] at hw
    rcases hw with ((rfl | rfl) | rfl) | rfl <;> exact absurd h (by decide)
  · intro heq
    rw [heq] at h
    exact absurd h (by decide)
  · intro heq
    rw [heq] at h
    exact absurd h (by decide)
  · intro heq
    rw [heq] at h
    exact absurd h (by decide)
  · intro heq
    rw [heq] at h
    exact absurd h (by decide)

theorem digitChar_spec (d : Nat) (hd : d < 10) :
    (digitChar d).isDigit = true ∧ charVal (digitChar d) = d := by
  interval_cases d <;> exact ⟨by decide, by decide⟩

theorem natStr_ne_nil (n : Nat) : natStr n ≠ [] := by
  unfold natStr
  split
  · simp
  · rename_i h
    simp only [ne_eq, List.reverse_eq_nil_iff, List.map_eq_nil_iff]
    exact Nat.digits_ne_nil_iff_ne_zero.mpr h

theorem natStr_all_digit (n : Nat) : ∀ c ∈ natStr n, c.isDigit = true := by
  intro c hc
  unfold natStr at hc
  split at hc
  · rw [List.mem_singleton] at hc
    subst hc
    decide
  · rw [List.mem_reverse, List.mem_map] at hc
    obtain ⟨d, hd, rfl⟩ := hc
    exact (digitChar_spec d (Nat.digits_lt_base (by norm_num) hd)).1

theorem digitsVal_append_singleton (xs : List Char) (c : Char) :
    digitsVal (xs ++ [c]) = 10 * digitsVal xs + charVal c := by
  unfold digitsVal
  rw [List.foldl_append]
  rfl

theorem digitsVal_rev_map (ds : List Nat) (h : ∀ d ∈ ds, d < 10) :
    digitsVal ((ds.map digitChar).reverse) = Nat.ofDigits 10 ds := by
  induction ds with
  | nil => simp [digitsVal, Nat.ofDigits]
  | cons d ds ih =>
    have hd := (digitChar_spec d (h d (List.mem_cons_self d ds))).2
    simp only [List.map_cons, List.reverse_cons]
    rw [digitsVal_append_singleton, ih (fun x hx => h x (List.mem_cons_of_mem d hx)), hd,
      Nat.ofDigits_cons]
    ring

theorem digitsVal_natStr (n : Nat) : digitsVal (natStr n) = n := by
  unfold natStr
  split
  · next h => subst h; decide
  · rw [digitsVal_rev_map _ (fun d hd => Nat.digits_lt_base (by norm_num) hd),
      Nat.ofDigits_digits]

theorem pyIntOpt_natStr (n : Nat) : pyIntOpt (natStr n) = some (n : Int) := by
  obtain ⟨c, cs, hrepr⟩ := List.exists_cons_of_ne_nil (natStr_ne_nil n)
  have hall : ∀ x ∈ natStr n, x.isDigit = true := natStr_all_digit n
  have hc : c.isDigit = true := hall c (by rw [hrepr]; exact List.mem_cons_self c cs)
  have hfacts := isDigit_char_facts c hc
  have hval : digitsVal (c :: cs) = n := by rw [← hrepr]; exact digitsVal_natStr n
  rw [hrepr] at hall ⊢
  simp only [pyIntOpt]
  rw [if_neg hfacts.2.2.2.1, if_neg hfacts.2.2.2.2,
    if_pos (List.all_eq_true.mpr (fun x hx => hall x hx)), hval]

theorem pyIntOpt_intStr (e : Int) : pyIntOpt (intStr e) = some e := by
  unfold intStr
  split
  · rename_i hneg
    simp only [pyIntOpt, if_true]
    rw [if_pos ⟨natStr_ne_nil e.natAbs,
        List.all_eq_true.mpr (fun x hx => natStr_all_digit _ x hx)⟩,
      digitsVal_natStr]
    congr 1
    omega
  · rename_i hpos
    rw [pyIntOpt_natStr]
    congr 1
    omega

theorem intStr_facts (e : Int) :
    intStr e ≠ [] ∧ ∀ c ∈ intStr e, c.isWhitespace = false ∧ c ≠ '\"' ∧ c ≠ '=' := by
  unfold intStr
  split
  · refine ⟨by simp, ?_⟩
    intro c hc
    rcases List.mem_cons.mp hc with rfl | hc
    · exact ⟨by decide, by decide, by decide⟩
    · have := isDigit_char_facts c (natStr_all_digit _ c hc)
      exact ⟨this.1, this.2.1, this.2.2.1⟩
  · refine ⟨natStr_ne_nil _, ?_⟩
    intro c hc
    have := isDigit_char_facts c (natStr_all_digit _ c hc)
    exact ⟨this.1, this.2.1, this.2.2.1⟩

theorem splitWsAux_noWs_append (xs : List Char)
    (h : ∀ c ∈ xs, c.isWhitespace = false) (rest acc : List Char) :
    splitWsAux (xs ++ rest) acc = splitWsAux rest (xs.reverse ++ acc) := by
  induction xs generalizing acc with
  | nil => simp
  | cons c cs ih =>
    have hc := h c (List.mem_cons_self c cs)
    simp only [List.cons_append, splitWsAux, hc, Bool.false_eq_true, if_false,
      List.reverse_cons, List.append_assoc, List.singleton_append]
    exact ih (fun x hx => h x (List.mem_cons_of_mem c hx)) (c :: acc)

theorem splitWsAux_noWs_only (t acc : List Char)
    (h : ∀ c ∈ t, c.isWhitespace = false) (hn : ¬(t.reverse ++ acc) = []) :
    splitWsAux t acc = [(t.reverse ++ acc).reverse] := by
  have happ := splitWsAux_noWs_append t h [] acc
  rw [List.append_nil] at happ
  rw [happ]
  simp only [splitWsAux]
  rw [if_neg (by simpa using hn)]

theorem pySplitWs_two_tokens (t1 t2 : List Char)
    (h1 : ∀ c ∈ t1, c.isWhitespace = false) (h2 : ∀ c ∈ t2, c.isWhitespace = false)
    (hn1 : t1 ≠ []) (hn2 : t2 ≠ []) :
    pySplitWs (t1 ++ ' ' :: t2) = [t1, t2] := by
  unfold pySplitWs
  rw [splitWsAux_noWs_append t1 h1 (' ' :: t2) []]
  simp only [splitWsAux]
  rw [if_pos (by decide)]
  rw [if_neg (by simpa using hn1)]
  rw [splitWsAux_noWs_only t2 [] h2 (by simpa using hn2)]
  simp

theorem splitEqAux_first_eq (pre : List Char) (hpre : '=' ∉ pre) (rest acc : List Char) :
    splitEqAux (pre ++ '=' :: rest) acc = some (acc.reverse ++ pre, rest) := by
  induction pre generalizing acc with
  | nil => simp [splitEqAux]
  | cons c cs ih =>
    have hc : ¬(c = '=') := fun h => hpre (h ▸ List.mem_cons_self c cs)
    simp only [List.cons_append, splitEqAux, if_neg hc]
    rw [show (cs.append ('=' :: rest)) = cs ++ '=' :: rest from rfl,
      ih (fun h => hpre (List.mem_cons_of_mem c h)) (c :: acc)]
    simp

theorem pyRemoveQuotes_eq_self (s : PyStr) (h : ∀ c ∈ s, c ≠ '\"') :
    pyRemoveQuotes s = s := by
  unfold pyRemoveQuotes
  exact List.filter_eq_self.mpr (fun c hc => by simpa using h c hc)

/-- Parsing the encoded lease: `parse_txt` of `owner=<o> exp=<e>` yields
exactly the two expected bindings, for any whitespace-, quote- and
equals-free nonempty owner string. -/
theorem parse_txt_encodeTxt (o : PyStr) (e : Int)
    (ho : ∀ c ∈ o, c.isWhitespace = false ∧ c ≠ '\"') :
    parse_txt (encodeTxt o e) =
      [(pyStr "owner", o), (pyStr "exp", intStr e)] := by
  have hi := intStr_facts e
  have hc1 : ∀ c ∈ pyStr "owner=", c.isWhitespace = false ∧ c ≠ '\"' := by decide
  have hc2 : ∀ c ∈ pyStr "exp=", c.isWhitespace = false ∧ c ≠ '\"' := by decide
  have hassoc : encodeTxt o e =
      (pyStr "owner=" ++ o) ++ ' ' :: (pyStr "exp=" ++ intStr e) := by
    unfold encodeTxt
    simp [pyStr, List.append_assoc]
  have ht1ws : ∀ c ∈ pyStr "owner=" ++ o, c.isWhitespace = false := by
    intro c hc
    rcases List.mem_append.mp hc with hc | hc
    · exact (hc1 c hc).1
    · exact (ho c hc).1
  have ht2ws : ∀ c ∈ pyStr "exp=" ++ intStr e, c.isWhitespace = false := by
    intro c hc
    rcases List.mem_append.mp hc with hc | hc
    · exact (hc2 c hc).1
    · exact (hi.2 c hc).1
  have hq : ∀ c ∈ encodeTxt o e, c ≠ '\"' := by
    intro c hc
    rw [hassoc] at hc
    rcases List.mem_append.mp hc with hc | hc
    · rcases List.mem_append.mp hc with hc | hc
      · exact (hc1 c hc).2
      · exact (ho c hc).2
    · rcases List.mem_cons.mp hc with rfl | hc
      · decide
      · rcases List.mem_append.mp hc with hc | hc
        · exact (hc2 c hc).2
        · exact (hi.2 c hc).2.1
  have hne : (encodeTxt o e).isEmpty = false := by
    rw [hassoc]
    simp
  unfold parse_txt
  rw [hne]
  simp only [Bool.false_eq_true, if_false]
  rw [pyRemoveQuotes_eq_self _ hq, hassoc,
    pySplitWs_two_tokens _ _ ht1ws ht2ws (by simp [pyStr]) (by simp [pyStr])]
  have hsp1 : pySplitEq1 (pyStr "owner=" ++ o) = some (pyStr "owner", o) := by
    have : pyStr "owner=" ++ o = pyStr "owner" ++ '=' :: o := by simp [pyStr]
    rw [this]
    unfold pySplitEq1
    rw [splitEqAux_first_eq (pyStr "owner") (by decide) o []]
    simp
  have hsp2 : pySplitEq1 (pyStr "exp=" ++ intStr e) = some (pyStr "exp", intStr e) := by
    have : pyStr "exp=" ++ intStr e = pyStr "exp" ++ '=' :: intStr e := by simp [pyStr]
    rw [this]
    unfold pySplitEq1
    rw [splitEqAux_first_eq (pyStr "exp") (by decide) (intStr e) []]
    simp
  simp [hsp1, hsp2]

/-- Decoding the encoded lease recovers the owner and the expiry. -/
theorem decode_encodeTxt (o : PyStr) (e : Int)
    (ho : ∀ c ∈ o, c.isWhitespace = false ∧ c ≠ '\"') :
    leaseOwner (some (encodeTxt o e)) = some o ∧
      leaseExp (some (encodeTxt o e)) = some e := by
  have hp := parse_txt_encodeTxt o e ho
  have hko : (decide (pyStr "owner" = pyStr "owner")) = true := by decide
  have hke : (decide (pyStr "exp" = pyStr "owner")) = false := by decide
  have hko2 : (decide (pyStr "owner" = pyStr "exp")) = false := by decide
  have hke2 : (decide (pyStr "exp" = pyStr "exp")) = true := by decide
  have hgo : dictGet (parse_txt (encodeTxt o e)) (pyStr "owner") = some o := by
    rw [hp]
    unfold dictGet
    simp [List.filter, hko, hke]
  have hge : dictGet (parse_txt (encodeTxt o e)) (pyStr "exp") = some (intStr e) := by
    rw [hp]
    unfold dictGet
    simp [List.filter, hko2, hke2]
  constructor
  · unfold leaseOwner
    simpa using hgo
  · unfold leaseExp
    simp only [Option.getD_some, hge]
    rw [if_neg (by simpa using (intStr_facts e).1)]
    exact pyIntOpt_intStr e

/-! Claim theorems. -/

/-- C5 counterexample: the claim expects `merge_consecutive` on the gap
timestamps `[100, 400, 700, 1000]` with step 300 to return the four ranges
`[(100,400), (400,700), (700,1000), (1000,1300)]`; the code does not. -/
theorem c5_counterexample :
    VmSync.merge_consecutive [100, 400, 700, 1000] 300 ≠
      [(100, 400), (400, 700), (700, 1000), (1000, 1300)] := by
  decide

/-- C5 as amended: the timestamps `[100, 400, 700, 1000]` form one
contiguous run (each equals the previous range end), so `merge_consecutive`
with step 300 merges them into the single range `(100, 1300)`, which covers
exactly the four claimed buckets. -/
theorem c5_merge_single_range :
    VmSync.merge_consecutive [100, 400, 700, 1000] 300 = [(100, 1300)] := by
  decide

/-- C4 counterexample: `save_state` of neither reconciler follows the
claimed temp-file-then-rename pattern — at the default state-file paths and
initial states, no written temporary file is later renamed onto the
state-file path (there is no rename at all). -/
theorem c4_counterexample :
    (¬∃ tmp, FsOp.writeFile tmp ({} : VmSync.SyncState) ∈
        VmSync.save_state (pyStr "/state/vm-sync-state.json") {} ∧
      FsOp.rename tmp (pyStr "/state/vm-sync-state.json") ∈
        VmSync.save_state (pyStr "/state/vm-sync-state.json") {}) ∧
    (¬∃ tmp, FsOp.writeFile tmp ({} : ChSync.SyncState) ∈
        ChSync.save_state (pyStr "/state/ch-sync-state.json") {} ∧
      FsOp.rename tmp (pyStr "/state/ch-sync-state.json") ∈
        ChSync.save_state (pyStr "/state/ch-sync-state.json") {}) := by
  constructor
  · rintro ⟨tmp, -, hr⟩
    simp [VmSync.save_state] at hr
  · rintro ⟨tmp, -, hr⟩
    simp [ChSync.save_state] at hr

/-- C4 as amended: after every reconciler cycle `save_state` ensures the
parent directory exists and then writes the serialized state directly to the
state-file path, in place — no temporary file and no rename, so the write is
not atomic and an observer may see a partially written document. -/
theorem c4_save_state_direct_write (path : PyStr) (vst : VmSync.SyncState)
    (cst : ChSync.SyncState) :
    VmSync.save_state path vst =
      [FsOp.makedirs (pyDirname path), FsOp.writeFile path vst] ∧
    ChSync.save_state path cst =
      [FsOp.makedirs (pyDirname path), FsOp.writeFile path cst] ∧
    (∀ op ∈ VmSync.save_state path vst, FsOp.isRename op = false) ∧
    (∀ op ∈ ChSync.save_state path cst, FsOp.isRename op = false) := by
  refine ⟨rfl, rfl, ?_, ?_⟩
  · intro op hop
    rcases List.mem_cons.mp hop with rfl | hop
    · rfl
    · rw [List.mem_singleton] at hop
      subst hop
      rfl
  · intro op hop
    rcases List.mem_cons.mp hop with rfl | hop
    · rfl
    · rw [List.mem_singleton] at hop
      subst hop
      rfl

/-- C2 counterexample: an absent TXT record decodes to `(owner=null,
exp=0)`, but in a DR tick with `fails ≥ F` the DR then treats the lease as
expired and writes `(dr_ip, 'dr', now+L)` — it does not wait. -/
theorem c2_counterexample :
    leaseOwner none = none ∧ leaseExp none = some 0 ∧
    dr_tick
        { primary_ip := pyStr "10.10.10.10", dr_ip := pyStr "10.20.20.10",
          lease_ttl := 60, fail_threshold := 3 }
        2
        { healthy := false, records := { A := none, TXT := none }, now := 100 } =
      some ([{ ip := pyStr "10.20.20.10", owner := pyStr "dr", exp := 160 }], 3) := by
  refine ⟨by decide, by decide, by decide⟩

/-- C2 as amended: a malformed, empty or absent lease TXT (one whose parse
binds neither `owner` nor `exp`) decodes to `(owner=null, exp=0)`; in a DR
tick with `fails ≥ F` and a positive clock, the DR then treats the null
lease as already expired and promotes, writing `(dr_ip, 'dr', now+L)` in
that tick rather than waiting. -/
theorem c2_malformed_lease_promotes (cfg : FoConfig) (fails : Nat) (inp : DrTickInput)
    (hh : inp.healthy = false)
    (hf : cfg.fail_threshold ≤ ((fails + 1 : Nat) : Int))
    (ho : dictGet (parse_txt (inp.records.TXT.getD [])) (pyStr "owner") = none)
    (he : dictGet (parse_txt (inp.records.TXT.getD [])) (pyStr "exp") = none)
    (hn : 0 < inp.now) :
    leaseOwner inp.records.TXT = none ∧ leaseExp inp.records.TXT = some 0 ∧
    dr_tick cfg fails inp = some ([promote_to_dr cfg inp.now], fails + 1) := by
  have hlo : leaseOwner inp.records.TXT = none := by
    unfold leaseOwner
    exact ho
  have hle : leaseExp inp.records.TXT = some 0 := by
    unfold leaseExp
    rw [he]
  refine ⟨hlo, hle, ?_⟩
  simp only [dr_tick, hh, Bool.false_eq_true, if_false, hle]
  rw [if_neg (not_lt.mpr hf)]
  rw [if_neg (by rw [hlo]; simp), if_pos hn]

/-- C2 amended witness at a concrete input. -/
theorem c2_malformed_lease_promotes_witness :
    leaseOwner (some (pyStr "garbage lease")) = none ∧
    leaseExp (some (pyStr "garbage lease")) = some 0 ∧
    dr_tick
        { primary_ip := pyStr "10.10.10.10", dr_ip := pyStr "10.20.20.10",
          lease_ttl := 60, fail_threshold := 3 }
        4
        { healthy := false,
          records := { A := none, TXT := some (pyStr "garbage lease") }, now := 50 } =
      some ([promote_to_dr
        { primary_ip := pyStr "10.10.10.10", dr_ip := pyStr "10.20.20.10",
          lease_ttl := 60, fail_threshold := 3 } 50], 4 + 1) :=
  c2_malformed_lease_promotes
    { primary_ip := pyStr "10.10.10.10", dr_ip := pyStr "10.20.20.10",
      lease_ttl := 60, fail_threshold := 3 }
    4
    { healthy := false,
      records := { A := none, TXT := some (pyStr "garbage lease") }, now := 50 }
    (by decide) (by decide) (by decide) (by decide) (by decide)

/-- C1 counterexample: with `F = 3`, three consecutive failures, and a valid
DR-owned lease (`exp = 1000`, `now = 100`), the DR tick issues a
`(dr_ip, 'dr', _)` write (the renewal path) even though `now ≥ exp` is
false, so the claimed conjunction does not gate every such write. -/
theorem c1_counterexample :
    dr_tick
        { primary_ip := pyStr "10.10.10.10", dr_ip := pyStr "10.20.20.10",
          lease_ttl := 60, fail_threshold := 3 }
        2
        { healthy := false,
          records := { A := some (pyStr "10.20.20.10"),
                       TXT := some (pyStr "owner=dr exp=1000") }, now := 100 } =
      some ([{ ip := pyStr "10.20.20.10", owner := pyStr "dr", exp := 160 }], 3) ∧
    leaseExp (some (pyStr "owner=dr exp=1000")) = some 1000 ∧
    ¬((100 : Int) ≥ 1000) := by
  refine ⟨by decide, by decide, by decide⟩

/-- C1 as amended: every `(dr_ip, 'dr', _)` write of a DR tick happens with
`fails ≥ F`, is exactly `(dr_ip, 'dr', now + L)`, and is issued either
because the decoded lease owner is already `dr` (renewal) or because the
owner is not `dr` and the decoded expiry is strictly below `now`
(promotion); only the promotion path additionally requires the lease to
have expired. -/
theorem c1_dr_write_conditions (cfg : FoConfig) (fails : Nat) (inp : DrTickInput)
    (ws : List Write) (fails' : Nat)
    (h : dr_tick cfg fails inp = some (ws, fails')) (w : Write) (hw : w ∈ ws) :
    w = { ip := cfg.dr_ip, owner := pyStr "dr", exp := inp.now + cfg.lease_ttl } ∧
    cfg.fail_threshold ≤ (fails' : Int) ∧
    (leaseOwner inp.records.TXT = some (pyStr "dr") ∨
      (leaseOwner inp.records.TXT ≠ some (pyStr "dr") ∧
        ∃ e, leaseExp inp.records.TXT = some e ∧ e < inp.now)) := by
  simp only [dr_tick] at h
  split at h
  · simp only [Option.some.injEq, Prod.mk.injEq] at h
    obtain ⟨h1, -⟩ := h
    subst h1
    exact absurd hw (List.not_mem_nil w)
  · split at h
    · simp only [Option.some.injEq, Prod.mk.injEq] at h
      obtain ⟨h1, -⟩ := h
      subst h1
      exact absurd hw (List.not_mem_nil w)
    · rename_i hthr
      split at h
      · exact Option.noConfusion h
      · rename_i e hle
        split at h
        · rename_i hown
          simp only [Option.some.injEq, Prod.mk.injEq] at h
          obtain ⟨h1, h2⟩ := h
          subst h1
          subst h2
          rw [List.mem_singleton] at hw
          subst hw
          exact ⟨rfl, le_of_not_lt hthr, Or.inl hown⟩
        · rename_i hown
          split at h
          · rename_i hexp
            simp only [Option.some.injEq, Prod.mk.injEq] at h
            obtain ⟨h1, h2⟩ := h
            subst h1
            subst h2
            rw [List.mem_singleton] at hw
            subst hw
            exact ⟨rfl, le_of_not_lt hthr, Or.inr ⟨hown, e, hle, hexp⟩⟩
          · simp only [Option.some.injEq, Prod.mk.injEq] at h
            obtain ⟨h1, -⟩ := h
            subst h1
            exact absurd hw (List.not_mem_nil w)

/-- C1 amended witness at a concrete input (the renewal path). -/
theorem c1_dr_write_conditions_witness :
    dr_tick
        { primary_ip := pyStr "10.10.10.10", dr_ip := pyStr "10.20.20.10",
          lease_ttl := 60, fail_threshold := 3 }
        2
        { healthy := false,
          records := { A := some (pyStr "10.20.20.10"),
                       TXT := some (pyStr "owner=dr exp=1000") }, now := 100 } =
      some ([{ ip := pyStr "10.20.20.10", owner := pyStr "dr", exp := 160 }], 3) ∧
    (({ ip := pyStr "10.20.20.10", owner := pyStr "dr", exp := 160 } : Write) =
        { ip := pyStr "10.20.20.10", owner := pyStr "dr", exp := (100 : Int) + 60 } ∧
      (3 : Int) ≤ ((3 : Nat) : Int) ∧
      (leaseOwner (some (pyStr "owner=dr exp=1000")) = some (pyStr "dr") ∨
        (leaseOwner (some (pyStr "owner=dr exp=1000")) ≠ some (pyStr "dr") ∧
          ∃ e, leaseExp (some (pyStr "owner=dr exp=1000")) = some e ∧
            e < (100 : Int)))) :=
  ⟨by decide,
    c1_dr_write_conditions
      { primary_ip := pyStr "10.10.10.10", dr_ip := pyStr "10.20.20.10",
        lease_ttl := 60, fail_threshold := 3 }
      2
      { healthy := false,
        records := { A := some (pyStr "10.20.20.10"),
                     TXT := some (pyStr "owner=dr exp=1000") }, now := 100 }
      [{ ip := pyStr "10.20.20.10", owner := pyStr "dr", exp := 160 }]
      3 (by decide)
      { ip := pyStr "10.20.20.10", owner := pyStr "dr", exp := 160 }
      (List.mem_singleton_self _)⟩

/-- C6: the lease codec round-trips — for both owners and every natural
expiry, parsing the encoded TXT string recovers the owner and the expiry —
and the three literal scenario cases hold. -/
theorem c6_lease_codec_roundtrip (o : PyStr) (e : Nat)
    (ho : o = pyStr "primary" ∨ o = pyStr "dr") :
    (leaseOwner (some (encodeTxt o (e : Int))) = some o ∧
      leaseExp (some (encodeTxt o (e : Int))) = some (e : Int)) ∧
    leaseOwner (some (pyStr "owner=primary exp=1700000000")) = some (pyStr "primary") ∧
    leaseExp (some (pyStr "owner=primary exp=1700000000")) = some 1700000000 ∧
    leaseOwner (some (pyStr "")) = none ∧
    leaseExp (some (pyStr "")) = some 0 ∧
    leaseOwner (some (pyStr "owner=dr junk exp=42 extra=x")) = some (pyStr "dr") ∧
    leaseExp (some (pyStr "owner=dr junk exp=42 extra=x")) = some 42 := by
  refine ⟨?_, by decide, by decide, by decide, by decide, by decide, by decide⟩
  rcases ho with rfl | rfl
  · exact decode_encodeTxt _ _ (by decide)
  · exact decode_encodeTxt _ _ (by decide)

/-- C6 witness at the owner `primary` and expiry 5. -/
theorem c6_lease_codec_roundtrip_witness :
    (pyStr "primary" = pyStr "primary" ∨ pyStr "primary" = pyStr "dr") ∧
    ((leaseOwner (some (encodeTxt (pyStr "primary") ((5 : Nat) : Int))) =
        some (pyStr "primary") ∧
      leaseExp (some (encodeTxt (pyStr "primary") ((5 : Nat) : Int))) =
        some ((5 : Nat) : Int)) ∧
    leaseOwner (some (pyStr "owner=primary exp=1700000000")) = some (pyStr "primary") ∧
    leaseExp (some (pyStr "owner=primary exp=1700000000")) = some 1700000000 ∧
    leaseOwner (some (pyStr "")) = none ∧
    leaseExp (some (pyStr "")) = some 0 ∧
    leaseOwner (some (pyStr "owner=dr junk exp=42 extra=x")) = some (pyStr "dr") ∧
    leaseExp (some (pyStr "owner=dr junk exp=42 extra=x")) = some 42) :=
  ⟨Or.inl rfl, c6_lease_codec_roundtrip (pyStr "primary") 5 (Or.inl rfl)⟩

/-- Every write issued by a DR tick is the renewal/promotion write
`(dr_ip, 'dr', now + lease_ttl)`. -/
theorem dr_tick_write_shape (cfg : FoConfig) (fails : Nat) (inp : DrTickInput)
    (ws : List Write) (fails' : Nat)
    (h : dr_tick cfg fails inp = some (ws, fails')) (w : Write) (hw : w ∈ ws) :
    w = { ip := cfg.dr_ip, owner := pyStr "dr", exp := inp.now + cfg.lease_ttl } := by
  simp only [dr_tick] at h
  split at h
  · simp only [Option.some.injEq, Prod.mk.injEq] at h
    obtain ⟨h1, -⟩ := h
    subst h1
    exact absurd hw (List.not_mem_nil w)
  · split at h
    · simp only [Option.some.injEq, Prod.mk.injEq] at h
      obtain ⟨h1, -⟩ := h
      subst h1
      exact absurd hw (List.not_mem_nil w)
    · split at h
      · exact Option.noConfusion h
      · split at h
        · simp only [Option.some.injEq, Prod.mk.injEq] at h
          obtain ⟨h1, -⟩ := h
          subst h1
          rw [List.mem_singleton] at hw
          exact hw
        · split at h
          · simp only [Option.some.injEq, Prod.mk.injEq] at h
            obtain ⟨h1, -⟩ := h
            subst h1
            rw [List.mem_singleton] at hw
            exact hw
          · simp only [Option.some.injEq, Prod.mk.injEq] at h
            obtain ⟨h1, -⟩ := h
            subst h1
            exact absurd hw (List.not_mem_nil w)

/-- C7: every `set_records` call of the failover controller — `init`,
`promote`, `failback`, the primary heartbeat, and whatever a DR tick
issues — pairs owner `primary` with `primary_ip` and owner `dr` with
`dr_ip`; and after applying any such write to the record pair (dry-run
provider semantics), the `A` record equals the written IP and the TXT lease
decodes to exactly the written owner and expiry, so the `A` record's IP is
the IP configured for the lease's owner. -/
theorem c7_write_owner_ip_coherence (cfg : FoConfig) (now : Int) (fails : Nat)
    (inp : DrTickInput) (ws : List Write) (fails' : Nat)
    (h : dr_tick cfg fails inp = some (ws, fails')) :
    ∀ w ∈ init_dns cfg now :: promote_to_dr cfg now :: failback_to_primary cfg now ::
        primary_tick cfg now :: ws,
      ((w.owner = pyStr "primary" ∧ w.ip = cfg.primary_ip) ∨
        (w.owner = pyStr "dr" ∧ w.ip = cfg.dr_ip)) ∧
      (dryrunSet w).A = some w.ip ∧
      leaseOwner (dryrunSet w).TXT = some w.owner ∧
      leaseExp (dryrunSet w).TXT = some w.exp := by
  have hpr : ∀ c ∈ pyStr "primary", c.isWhitespace = false ∧ c ≠ '\"' := by decide
  have hdr : ∀ c ∈ pyStr "dr", c.isWhitespace = false ∧ c ≠ '\"' := by decide
  intro w hw
  simp only [List.mem_cons] at hw
  rcases hw with rfl | rfl | rfl | rfl | hw
  · exact ⟨Or.inl ⟨rfl, rfl⟩, rfl,
      (decode_encodeTxt _ _ hpr).1, (decode_encodeTxt _ _ hpr).2⟩
  · exact ⟨Or.inr ⟨rfl, rfl⟩, rfl,
      (decode_encodeTxt _ _ hdr).1, (decode_encodeTxt _ _ hdr).2⟩
  · exact ⟨Or.inl ⟨rfl, rfl⟩, rfl,
      (decode_encodeTxt _ _ hpr).1, (decode_encodeTxt _ _ hpr).2⟩
  · exact ⟨Or.inl ⟨rfl, rfl⟩, rfl,
      (decode_encodeTxt _ _ hpr).1, (decode_encodeTxt _ _ hpr).2⟩
  · have hshape := dr_tick_write_shape cfg fails inp ws fails' h w hw
    subst hshape
    exact ⟨Or.inr ⟨rfl, rfl⟩, rfl,
      (decode_encodeTxt _ _ hdr).1, (decode_encodeTxt _ _ hdr).2⟩

/-- C7 witness at a concrete configuration and a healthy DR tick. -/
theorem c7_write_owner_ip_coherence_witness :
    dr_tick
        { primary_ip := pyStr "10.10.10.10", dr_ip := pyStr "10.20.20.10",
          lease_ttl := 60, fail_threshold := 3 }
        0 { healthy := true, records := { A := none, TXT := none }, now := 100 } =
      some ([], 0) ∧
    (∀ w ∈ init_dns
          { primary_ip := pyStr "10.10.10.10", dr_ip := pyStr "10.20.20.10",
            lease_ttl := 60, fail_threshold := 3 } 100 ::
        promote_to_dr
          { primary_ip := pyStr "10.10.10.10", dr_ip := pyStr "10.20.20.10",
            lease_ttl := 60, fail_threshold := 3 } 100 ::
        failback_to_primary
          { primary_ip := pyStr "10.10.10.10", dr_ip := pyStr "10.20.20.10",
            lease_ttl := 60, fail_threshold := 3 } 100 ::
        primary_tick
          { primary_ip := pyStr "10.10.10.10", dr_ip := pyStr "10.20.20.10",
            lease_ttl := 60, fail_threshold := 3 } 100 :: ([] : List Write),
      ((w.owner = pyStr "primary" ∧
          w.ip = pyStr "10.10.10.10") ∨
        (w.owner = pyStr "dr" ∧ w.ip = pyStr "10.20.20.10")) ∧
      (dryrunSet w).A = some w.ip ∧
      leaseOwner (dryrunSet w).TXT = some w.owner ∧
      leaseExp (dryrunSet w).TXT = some w.exp) :=
  ⟨by decide,
    c7_write_owner_ip_coherence
      { primary_ip := pyStr "10.10.10.10", dr_ip := pyStr "10.20.20.10",
        lease_ttl := 60, fail_threshold := 3 }
      100 0
      { healthy := true, records := { A := none, TXT := none }, now := 100 }
      [] 0 (by decide)⟩

/-- C8 counterexample: after a first call records the baseline 10, a second
call observing the same value 10 (no strict increase) still returns healthy
— the probe keeps a stale-count grace period for flat readings, so "healthy
iff strictly increased" fails. -/
theorem c8_counterexample :
    metricsCheck pyFloatQ (pyStr "m") 3 {} (some (pyStr "m 10")) =
      (true, { last_value := some 10, stale_checks := 0 }) ∧
    metricsCheck pyFloatQ (pyStr "m") 3
        { last_value := some 10, stale_checks := 0 } (some (pyStr "m 10")) =
      (true, { last_value := some 10, stale_checks := 1 }) ∧
    parse_metric_value pyFloatQ (pyStr "m 10") (pyStr "m") = some 10 ∧
    ¬((10 : ℚ) > 10) := by
  refine ⟨by with_unfolding_all decide, by with_unfolding_all decide,
    by with_unfolding_all decide, by with_unfolding_all decide⟩

/-- C8 as amended: when the fetch fails or the metric is absent the stale
counter is incremented (baseline kept) and the probe is healthy iff the
counter is still below `stale_count`; a first successful reading returns
healthy and records the baseline; a reading strictly above the baseline
returns healthy and resets the stale counter; a reading that did **not**
strictly increase also increments the stale counter, records the new value,
and — unlike the claim's "healthy iff strictly increased" — stays healthy
until the counter reaches `stale_count`. -/
theorem c8_metrics_probe_behaviour (pf : PyStr → Option ℚ) (name : PyStr)
    (stale_count : Int) (st : MState) (fetched : Option PyStr) :
    ((fetched.bind (fun t => parse_metric_value pf t name) = none) →
      metricsCheck pf name stale_count st fetched =
        (decide ((((st.stale_checks + 1 : Nat) : Int) < stale_count)),
         { st with stale_checks := st.stale_checks + 1 })) ∧
    (∀ t v, fetched = some t → parse_metric_value pf t name = some v →
      st.last_value = none →
      metricsCheck pf name stale_count st fetched =
        (true, { st with last_value := some v })) ∧
    (∀ t v lv, fetched = some t → parse_metric_value pf t name = some v →
      st.last_value = some lv → v > lv →
      metricsCheck pf name stale_count st fetched =
        (true, { last_value := some v, stale_checks := 0 })) ∧
    (∀ t v lv, fetched = some t → parse_metric_value pf t name = some v →
      st.last_value = some lv → ¬(v > lv) →
      metricsCheck pf name stale_count st fetched =
        (decide ((((st.stale_checks + 1 : Nat) : Int) < stale_count)),
         { last_value := some v, stale_checks := st.stale_checks + 1 })) := by
  refine ⟨?_, ?_, ?_, ?_⟩
  · intro hmiss
    cases hf : fetched with
    | none => simp [metricsCheck]
    | some t =>
      rw [hf] at hmiss
      simp only [Option.some_bind] at hmiss
      simp [metricsCheck, hmiss]
  · intro t v hf hp hlast
    subst hf
    simp [metricsCheck, hp, hlast]
  · intro t v lv hf hp hlast hgt
    subst hf
    simp [metricsCheck, hp, hlast, hgt]
  · intro t v lv hf hp hlast hngt
    subst hf
    simp [metricsCheck, hp, hlast, hngt]

/-- C8 amended witness: the flat-reading case at a concrete input. -/
theorem c8_metrics_probe_behaviour_witness :
    metricsCheck pyFloatQ (pyStr "m") 3
        { last_value := some 10, stale_checks := 0 } (some (pyStr "m 10")) =
      (decide ((((0 + 1 : Nat) : Int) < 3)),
       { last_value := some (10 : ℚ), stale_checks := 0 + 1 }) :=
  (c8_metrics_probe_behaviour pyFloatQ (pyStr "m") 3
      { last_value := some 10, stale_checks := 0 } (some (pyStr "m 10"))).2.2.2
    (pyStr "m 10") 10 10 rfl (by with_unfolding_all decide) rfl
    (by with_unfolding_all decide)

/-- C9 counterexample: a trace in which the managed process dies after the
activation (its `poll()` reports it dead) and DNS then points elsewhere: the
`should_be_active` trace `[false, true, false]` has one `true→false`
transition, but `stop` is skipped (`is_running()` is already false), so the
deactivate side effect fires zero times — not exactly once per transition. -/
theorem c9_counterexample :
    (Watcher.runTicks (pyStr "10.20.20.20") {}
        [{ resolved := some (pyStr "10.10.10.10"), aliveNow := false, startOk := true },
         { resolved := some (pyStr "10.20.20.20"), aliveNow := false, startOk := true },
         { resolved := some (pyStr "10.10.10.10"), aliveNow := false, startOk := true }]).1 =
      [Watcher.Event.activate] ∧
    Watcher.transitions false
        (Watcher.sbaTrace (pyStr "10.20.20.20")
          [some (pyStr "10.10.10.10"), some (pyStr "10.20.20.20"),
           some (pyStr "10.10.10.10")]) = (1, 1) ∧
    ¬(([Watcher.Event.activate].count Watcher.Event.deactivate) = 1) := by
  refine ⟨by decide, by decide, by decide⟩

/-- Edge-trigger counting in the benign environment, generalized over the
start state: with the `running` flag tracking the process, the numbers of
activate and deactivate side effects equal the numbers of `false→true` and
`true→false` edges of the `should_be_active` trace. -/
theorem runHealthy_transition_counts (myIp : PyStr) (rs : List (Option PyStr)) :
    ∀ (st : Watcher.WState), st.running = st.hasProc →
      (Watcher.runHealthy myIp st rs).1.count Watcher.Event.activate =
        (Watcher.transitions st.hasProc (Watcher.sbaTrace myIp rs)).1 ∧
      (Watcher.runHealthy myIp st rs).1.count Watcher.Event.deactivate =
        (Watcher.transitions st.hasProc (Watcher.sbaTrace myIp rs)).2 := by
  induction rs with
  | nil =>
    intro st hst
    simp [Watcher.runHealthy, Watcher.sbaTrace, Watcher.transitions, List.count]
  | cons r rest ih =>
    intro st hst
    cases r with
    | none =>
      simp only [Watcher.runHealthy, Watcher.healthyInput, Watcher.tick,
        Watcher.sbaTrace, List.filterMap_cons]
      simpa [Watcher.sbaTrace] using ih st hst
    | some ip =>
      by_cases hip : ip = myIp
      · subst hip
        cases hb : st.hasProc with
        | false =>
          have hr : st.running = false := by rw [hst, hb]
          obtain ⟨ih1, ih2⟩ :=
            ih { lastState := some true, running := true, hasProc := true } rfl
          simp [Watcher.runHealthy, Watcher.healthyInput, Watcher.tick,
            Watcher.is_running, Watcher.start, Watcher.stop, hb, hr,
            Watcher.sbaTrace, Watcher.transitions, List.count_cons, ih1, ih2]
        | true =>
          have hr : st.running = true := by rw [hst, hb]
          obtain ⟨ih1, ih2⟩ :=
            ih { lastState := some true, running := true, hasProc := true } rfl
          simp [Watcher.runHealthy, Watcher.healthyInput, Watcher.tick,
            Watcher.is_running, Watcher.start, Watcher.stop, hb, hr,
            Watcher.sbaTrace, Watcher.transitions, List.count_cons, ih1, ih2]
      · have hd : (decide (ip = myIp)) = false := by simp [hip]
        cases hb : st.hasProc with
        | false =>
          have hr : st.running = false := by rw [hst, hb]
          obtain ⟨ih1, ih2⟩ :=
            ih { lastState := some false, running := false, hasProc := false } rfl
          simp [Watcher.runHealthy, Watcher.healthyInput, Watcher.tick,
            Watcher.is_running, Watcher.start, Watcher.stop, hb, hr, hd,
            Watcher.sbaTrace, Watcher.transitions, List.count_cons, ih1, ih2]
        | true =>
          have hr : st.running = true := by rw [hst, hb]
          obtain ⟨ih1, ih2⟩ :=
            ih { lastState := some false, running := false, hasProc := false } rfl
          simp [Watcher.runHealthy, Watcher.healthyInput, Watcher.tick,
            Watcher.is_running, Watcher.start, Watcher.stop, hb, hr, hd,
            Watcher.sbaTrace, Watcher.transitions, List.count_cons, ih1, ih2]

/-- C9 as amended: when every start succeeds and the managed process stays
alive until stopped, the watcher loop fires activate exactly once per
`false→true` transition of `should_be_active` and deactivate exactly once
per `true→false` transition (resolution-failure ticks change nothing); when
the process dies or a start fails, extra activate attempts (crash recovery)
or skipped deactivations occur. -/
theorem c9_edge_triggering_healthy (myIp : PyStr) (rs : List (Option PyStr)) :
    (Watcher.runHealthy myIp {} rs).1.count Watcher.Event.activate =
      (Watcher.transitions false (Watcher.sbaTrace myIp rs)).1 ∧
    (Watcher.runHealthy myIp {} rs).1.count Watcher.Event.deactivate =
      (Watcher.transitions false (Watcher.sbaTrace myIp rs)).2 :=
  runHealthy_transition_counts myIp rs {} rfl

/-- The vm-sync configuration of the C3 scenario: we are the primary site
with `failback_clean_checks = 3`. -/
def c3cfg : VmSync.Config :=
  { role := pyStr "primary", primary_ip := pyStr "10.10.10.10",
    dr_ip := pyStr "10.20.20.10", query_step := 300, gap_threshold := 9 / 10,
    chunk_size := 300, failback_clean_checks := 3 }

/-- A clean vm-sync cycle of the C3 scenario in which DNS resolves to the
**local** (primary) site and both sides report identical counts. -/
def c3inp : VmSync.CycleInput :=
  { nowIso := pyStr "t", localHealthy := true, remoteHealthy := true,
    resolvedIp := some (pyStr "10.10.10.10"), localCounts := [(0, 10)],
    remoteCounts := [(0, 10)], syncBytes := fun _ _ => 0 }

/-- C3 counterexample: after three clean vm-sync cycles during which the
**local** site is the active site throughout, the reachable state has
`failback_ready = true` while `active_site` equals our own role — the
remote site was never active, contradicting the claimed invariant. -/
theorem c3_counterexample :
    VmSync.Reach c3cfg
      (VmSync.run_sync_check c3cfg
        (VmSync.run_sync_check c3cfg (VmSync.run_sync_check c3cfg {} c3inp) c3inp)
        c3inp) ∧
    (VmSync.run_sync_check c3cfg
        (VmSync.run_sync_check c3cfg (VmSync.run_sync_check c3cfg {} c3inp) c3inp)
        c3inp).failback_ready = true ∧
    (VmSync.run_sync_check c3cfg
        (VmSync.run_sync_check c3cfg (VmSync.run_sync_check c3cfg {} c3inp) c3inp)
        c3inp).active_site = some c3cfg.role := by
  refine ⟨VmSync.Reach.step _ c3inp
    (VmSync.Reach.step _ c3inp (VmSync.Reach.step _ c3inp VmSync.Reach.init)), ?_, ?_⟩
  · with_unfolding_all decide
  · with_unfolding_all decide

/-- A vm-sync cycle can set `failback_ready` only if the updated
`consecutive_clean` has reached `failback_clean_checks` (the setting branch
is guarded by exactly that comparison). -/
theorem vm_ready_step (cfg : VmSync.Config) (st : VmSync.SyncState)
    (inp : VmSync.CycleInput) :
    (VmSync.run_sync_check cfg st inp).failback_ready = true →
      st.failback_ready = true ∨
        cfg.failback_clean_checks ≤ (VmSync.run_sync_check cfg st inp).consecutive_clean := by
  simp only [VmSync.run_sync_check]
  split
  · exact fun h => Or.inl h
  · split
    · exact fun h => Or.inl h
    · split
      · exact fun h => Or.inl h
      · split
        · exact fun h => Or.inl h
        · split
          · split
            · split
              · rename_i hge
                exact fun _ => Or.inr hge
              · exact fun h => Or.inl h
            · intro h
              simp at h
          · split
            · split
              · rename_i hge
                exact fun _ => Or.inr hge
              · exact fun h => Or.inl h
            · intro h
              simp at h

/-- A ch-sync cycle can set `failback_ready` only if the updated
`consecutive_clean` has reached `failback_clean_checks`, and only in the
branch where the currently active site differs from our role. -/
theorem ch_ready_step (cfg : ChSync.Config) (st : ChSync.SyncState)
    (inp : ChSync.CycleInput) :
    (ChSync.run_sync_check cfg st inp).failback_ready = true →
      st.failback_ready = true ∨
        (cfg.failback_clean_checks ≤ (ChSync.run_sync_check cfg st inp).consecutive_clean ∧
          ∃ a, (ChSync.run_sync_check cfg st inp).active_site = some a ∧ a ≠ cfg.role) := by
  simp only [ChSync.run_sync_check]
  split
  · exact fun h => Or.inl h
  · split
    · exact fun h => Or.inl h
    · split
      · exact fun h => Or.inl h
      · rename_i active heq
        split
        · exact fun h => Or.inl h
        · rename_i hne
          split
          · exact fun h => Or.inl h
          · split
            · split
              · rename_i hge
                exact fun _ => Or.inr ⟨hge, active, rfl, hne⟩
              · exact fun h => Or.inl h
            · intro h
              simp at h

/-- C3 as amended: in both reconcilers, `failback_ready` flips from false to
true only in a cycle after which `consecutive_clean ≥ failback_clean_checks`
(whose final increment records a cycle with zero gaps and zero new units);
in ch-sync the flipping cycle additionally requires the currently active
site to differ from our role (the remote site is active).  The original
claim's stronger conditions fail: neither reconciler requires the remote
site to have been active throughout the clean run (ch-sync counts
we-are-active cycles as clean), and vm-sync can flip `failback_ready` while
the local site is currently active. -/
theorem c3_failback_flip_conditions
    (vcfg : VmSync.Config) (vst : VmSync.SyncState) (vinp : VmSync.CycleInput)
    (ccfg : ChSync.Config) (cst : ChSync.SyncState) (cinp : ChSync.CycleInput)
    (hv : vst.failback_ready = false) (hc : cst.failback_ready = false) :
    ((VmSync.run_sync_check vcfg vst vinp).failback_ready = true →
      vcfg.failback_clean_checks ≤ (VmSync.run_sync_check vcfg vst vinp).consecutive_clean) ∧
    ((ChSync.run_sync_check ccfg cst cinp).failback_ready = true →
      ccfg.failback_clean_checks ≤ (ChSync.run_sync_check ccfg cst cinp).consecutive_clean ∧
      ∃ a, (ChSync.run_sync_check ccfg cst cinp).active_site = some a ∧ a ≠ ccfg.role) := by
  constructor
  · intro h
    rcases vm_ready_step vcfg vst vinp h with h' | h'
    · rw [hv] at h'
      exact absurd h' (by simp)
    · exact h'
  · intro h
    rcases ch_ready_step ccfg cst cinp h with h' | h'
    · rw [hc] at h'
      exact absurd h' (by simp)
    · exact h'

/-- The ch-sync configuration of the C3 witness. -/
def c3chCfg : ChSync.Config :=
  { role := pyStr "primary", primary_ip := pyStr "10.10.10.10",
    dr_ip := pyStr "10.20.20.10", failback_clean_checks := 1,
    auto_create_tables := false }

/-- A clean ch-sync cycle of the C3 witness: DNS resolves to the remote
(DR) site and there are no tables anywhere. -/
def c3chInp : ChSync.CycleInput :=
  { nowIso := pyStr "t", localHealthy := true, remoteHealthy := true,
    resolvedIp := some (pyStr "10.20.20.10"), localTables := [],
    remoteTables := [], createOk := fun _ => false,
    localParts := fun _ => [], remoteParts := fun _ => [],
    syncResult := fun _ _ => (false, 0) }

/-- C3 amended witness: cycles in which both reconcilers actually flip
`failback_ready`, discharging every hypothesis concretely. -/
theorem c3_failback_flip_conditions_witness :
    c3cfg.failback_clean_checks ≤
      (VmSync.run_sync_check c3cfg { consecutive_clean := 2 } c3inp).consecutive_clean ∧
    (c3chCfg.failback_clean_checks ≤
      (ChSync.run_sync_check c3chCfg {} c3chInp).consecutive_clean ∧
      ∃ a, (ChSync.run_sync_check c3chCfg {} c3chInp).active_site = some a ∧
        a ≠ c3chCfg.role) :=
  ⟨(c3_failback_flip_conditions c3cfg { consecutive_clean := 2 } c3inp
      c3chCfg {} c3chInp rfl rfl).1 (by with_unfolding_all decide),
   (c3_failback_flip_conditions c3cfg { consecutive_clean := 2 } c3inp
      c3chCfg {} c3chInp rfl rfl).2 (by with_unfolding_all decide)⟩

/-- Every timestamp accumulated by the `find_gaps` loop comes from a source
entry whose gap predicate held. -/
theorem vm_gaps_fold_mem (cfg : VmSync.Config) (dst : List (Int × Int)) :
    ∀ (src : List (Int × Int)) (acc : List Int) (x : Int),
      x ∈ src.foldl (VmSync.gapStep cfg dst) acc →
        x ∈ acc ∨ ∃ sc, (x, sc) ∈ src ∧ sc ≠ 0 ∧
          (if sc > 0 then (VmSync.dictGetD dst x 0 : ℚ) / (sc : ℚ) else 0) <
            cfg.gap_threshold := by
  intro src
  induction src with
  | nil => exact fun acc x hx => Or.inl hx
  | cons q qs ih =>
    intro acc x hx
    rw [List.foldl_cons] at hx
    rcases ih (VmSync.gapStep cfg dst acc q) x hx with h | ⟨sc, hm, hr⟩
    · simp only [VmSync.gapStep] at h
      split at h
      · exact Or.inl h
      · rename_i h0
        split at h
        · rename_i hpos
          split at h
          · rename_i hrat
            rcases List.mem_append.mp h with h | h
            · exact Or.inl h
            · rw [List.mem_singleton] at h
              subst h
              refine Or.inr ⟨q.2, by simp, h0, ?_⟩
              rw [if_pos hpos]
              exact hrat
          · exact Or.inl h
        · rename_i hpos
          split at h
          · rename_i hrat
            rcases List.mem_append.mp h with h | h
            · exact Or.inl h
            · rw [List.mem_singleton] at h
              subst h
              refine Or.inr ⟨q.2, by simp, h0, ?_⟩
              rw [if_neg hpos]
              exact hrat
          · exact Or.inl h
    · exact Or.inr ⟨sc, List.mem_cons_of_mem q hm, hr⟩

/-- Every triple accumulated by the `find_partition_gaps` loop comes from a
source entry whose destination count is strictly smaller. -/
theorem ch_gaps_fold_mem (dst : List (PyStr × Int)) :
    ∀ (src : List (PyStr × Int)) (acc : List (PyStr × Int × Int))
      (g : PyStr × Int × Int),
      g ∈ src.foldl (ChSync.partGapStep dst) acc →
        g ∈ acc ∨ ((g.1, g.2.1) ∈ src ∧ g.2.2 = pyGetD dst g.1 0 ∧
          g.2.2 < g.2.1) := by
  intro src
  induction src with
  | nil => exact fun acc g hg => Or.inl hg
  | cons q qs ih =>
    intro acc g hg
    rw [List.foldl_cons] at hg
    rcases ih (ChSync.partGapStep dst acc q) g hg with h | ⟨hm, hr⟩
    · simp only [ChSync.partGapStep] at h
      split at h
      · rename_i hlt
        rcases List.mem_append.mp h with h | h
        · exact Or.inl h
        · rw [List.mem_singleton] at h
          subst h
          exact Or.inr ⟨by simp, rfl, hlt⟩
      · exact Or.inl h
    · exact Or.inr ⟨List.mem_cons_of_mem q hm, hr⟩

/-- A timestamp whose every source entry (if any) has a nonnegative count
not exceeding the destination count is never reported by `find_gaps`, as
long as `gap_threshold ≤ 1`. -/
theorem vm_no_gap (vcfg : VmSync.Config) (src dst : List (Int × Int)) (ts : Int)
    (hthr : vcfg.gap_threshold ≤ 1)
    (hvm : ∀ sc, (ts, sc) ∈ src → 0 ≤ sc ∧ sc ≤ VmSync.dictGetD dst ts 0) :
    ts ∉ VmSync.find_gaps vcfg src dst := by
  intro hmem
  rw [VmSync.find_gaps, List.mem_mergeSort] at hmem
  rcases vm_gaps_fold_mem vcfg dst src [] ts hmem with h | ⟨sc, hm, h0, hrat⟩
  · exact absurd h (List.not_mem_nil ts)
  · obtain ⟨hsc0, hsle⟩ := hvm sc hm
    have hpos : (0 : Int) < sc := lt_of_le_of_ne hsc0 (Ne.symm h0)
    rw [if_pos hpos] at hrat
    have h1 : (VmSync.dictGetD dst ts 0 : ℚ) / (sc : ℚ) < 1 := lt_of_lt_of_le hrat hthr
    rw [div_lt_one (by exact_mod_cast hpos)] at h1
    exact absurd hsle (not_le.mpr (by exact_mod_cast h1))

/-- A partition whose every source entry (if any) has a count not exceeding
the destination count never appears among `find_partition_gaps`. -/
theorem ch_no_gap (csrc cdst : List (PyStr × Int)) (p : PyStr)
    (hch : ∀ sc, (p, sc) ∈ csrc → sc ≤ pyGetD cdst p 0) :
    ∀ g ∈ ChSync.find_partition_gaps csrc cdst, g.1 ≠ p := by
  intro g hg hgp
  rw [ChSync.find_partition_gaps] at hg
  rcases ch_gaps_fold_mem cdst csrc [] g hg with h | ⟨hm, heq, hlt⟩
  · exact absurd h (List.not_mem_nil g)
  · rw [hgp] at hm heq
    have := hch g.2.1 hm
    rw [← heq] at this
    exact absurd this (not_le.mpr hlt)

/-- C10: gap detection quantifies only over the source side's keys — a unit
present only at the destination, or whose destination count is at least the
source count, is never reported as a gap by either reconciler (for vm-sync
under the spec's threshold domain `gap_threshold ≤ 1` and nonnegative
counts); and when every source entry is covered by the destination, the gap
list is empty, so the cycle counts as clean and failback readiness is not
blocked. -/
theorem c10_gap_source_side_only
    (vcfg : VmSync.Config) (src dst : List (Int × Int)) (ts : Int)
    (csrc cdst : List (PyStr × Int)) (p : PyStr)
    (hthr : vcfg.gap_threshold ≤ 1)
    (hvm : ∀ sc, (ts, sc) ∈ src → 0 ≤ sc ∧ sc ≤ VmSync.dictGetD dst ts 0)
    (hch : ∀ sc, (p, sc) ∈ csrc → sc ≤ pyGetD cdst p 0) :
    ts ∉ VmSync.find_gaps vcfg src dst ∧
    (∀ g ∈ ChSync.find_partition_gaps csrc cdst, g.1 ≠ p) ∧
    ((∀ q ∈ src, 0 ≤ q.2 ∧ q.2 ≤ VmSync.dictGetD dst q.1 0) →
      VmSync.find_gaps vcfg src dst = []) ∧
    ((∀ q ∈ csrc, q.2 ≤ pyGetD cdst q.1 0) →
      ChSync.find_partition_gaps csrc cdst = []) := by
  refine ⟨vm_no_gap vcfg src dst ts hthr hvm, ch_no_gap csrc cdst p hch, ?_, ?_⟩
  · intro hall
    rw [List.eq_nil_iff_forall_not_mem]
    intro x
    exact vm_no_gap vcfg src dst x hthr (fun sc hm => hall (x, sc) hm)
  · intro hall
    rw [List.eq_nil_iff_forall_not_mem]
    intro g hg
    rcases ch_gaps_fold_mem cdst csrc [] g
        (by rw [ChSync.find_partition_gaps] at hg; exact hg) with h | ⟨hm, heq, hlt⟩
    · exact absurd h (List.not_mem_nil g)
    · have := hall (g.1, g.2.1) hm
      rw [← heq] at this
      exact absurd this (not_le.mpr hlt)

/-- The vm-sync configuration of the C10 witness. -/
def c10cfg : VmSync.Config :=
  { role := pyStr "primary", primary_ip := pyStr "10.10.10.10",
    dr_ip := pyStr "10.20.20.10", query_step := 300, gap_threshold := 9 / 10,
    chunk_size := 300, failback_clean_checks := 3 }

/-- C10 witness at concrete count dicts with destination surplus. -/
theorem c10_gap_source_side_only_witness :
    (5 : Int) ∉ VmSync.find_gaps c10cfg [(0, 10)] [(0, 12), (5, 7)] ∧
    (∀ g ∈ ChSync.find_partition_gaps [(pyStr "20240102", 600)]
        [(pyStr "20240102", 600), (pyStr "20240103", 50)], g.1 ≠ pyStr "20240103") ∧
    ((∀ q ∈ ([(0, 10)] : List (Int × Int)), 0 ≤ q.2 ∧
        q.2 ≤ VmSync.dictGetD [(0, 12), (5, 7)] q.1 0) →
      VmSync.find_gaps c10cfg [(0, 10)] [(0, 12), (5, 7)] = []) ∧
    ((∀ q ∈ ([(pyStr "20240102", 600)] : List (PyStr × Int)),
        q.2 ≤ pyGetD [(pyStr "20240102", 600), (pyStr "20240103", 50)] q.1 0) →
      ChSync.find_partition_gaps [(pyStr "20240102", 600)]
        [(pyStr "20240102", 600), (pyStr "20240103", 50)] = []) :=
  c10_gap_source_side_only c10cfg [(0, 10)] [(0, 12), (5, 7)] 5
    [(pyStr "20240102", 600)] [(pyStr "20240102", 600), (pyStr "20240103", 50)]
    (pyStr "20240103")
    (by with_unfolding_all decide)
    (by
      intro sc hm
      rw [List.mem_singleton, Prod.mk.injEq] at hm
      exact absurd hm.1 (by decide))
    (by
      intro sc hm
      rw [List.mem_singleton, Prod.mk.injEq] at hm
      exact absurd hm.1 (by decide))

end Failover
